import Mathlib

/-!
Shallow embedding of the vietick-backend authentication and
identity-verification core (Go), covering:

* `internal/model/user.go`, `internal/model/verification.go`,
  `src/unnamed/part_011` (auth models) — data model;
* `pkg/jwt/jwt.go` — token codec (`JWTManager`);
* `internal/repository/auth_repository.go` — session store;
* `src/unnamed/part_005` (user repository) — user record store;
* `internal/repository/verification_repository.go` (second file in
  `internal/config/config.go`) — verification store;
* `internal/service/auth_service.go` — auth orchestrator;
* `internal/service/verification_service.go` — verification reviewer.

Modeling conventions: machine time (`time.Now()`) is an explicit `Nat`
parameter measured in hours; the MySQL tables are Lean lists carried in a
`Db` record; `uuid.New()` and JWT issued-at freshness are modeled by a
monotone counter `Db.nextId`; bcrypt and SHA-256 are modeled as injective
functions, since only injectivity and verification are relevant to the
claims; fallible Go functions return `Except String`.
-/

namespace VieTick

/-- Status enum from internal/model/user.go (constants
`IdentityVerificationNone/Pending/Approved/Rejected`). -/
inductive IdentityVerificationStatus where
  | none
  | pending
  | approved
  | rejected
deriving DecidableEq, Repr

/-- Document type enum from internal/model/verification.go. -/
inductive IdentityDocumentType where
  | national_id
  | passport
  | driver_license
deriving DecidableEq, Repr

/-- A signed JWT, modeled structurally: the claims of `pkg/jwt.Claims`
plus the secret that signed it. Signature verification is modeled as
equality of the signing secret; `nonce` models the fact that each signing
event produces a distinct token string (fresh issued-at / uuid). -/
structure Jwt where
  userId : Nat
  username : String
  email : String
  expiresAt : Nat
  nonce : Nat
  secret : Nat
deriving DecidableEq, Repr

/-- User record from internal/model/user.go (fields relevant to the
auth/verification core). -/
structure User where
  id : Nat
  username : String
  email : String
  passwordHash : String
  fullName : String
  isVerified : Bool
  isEmailVerified : Bool
  emailVerificationToken : Option String
  emailVerificationExpiresAt : Option Nat
  identityVerificationStatus : IdentityVerificationStatus
deriving DecidableEq, Repr

namespace Model

/-- Refresh-token session record from the auth models (src/unnamed/part_011).
`tokenHash` stores the SHA-256 of the raw token; the hash is modeled by the
token value itself (an injective embedding, see `AuthService.hashToken`). -/
structure RefreshToken where
  id : Nat
  userId : Nat
  tokenHash : Jwt
  expiresAt : Nat
  createdAt : Nat
deriving DecidableEq, Repr

end Model

/-- IdentityVerification record from internal/model/verification.go. -/
structure IdentityVerification where
  id : Nat
  userId : Nat
  fullName : String
  idNumber : String
  idType : IdentityDocumentType
  frontImageURL : String
  backImageURL : Option String
  selfieImageURL : String
  status : IdentityVerificationStatus
  adminNotes : Option String
  submittedAt : Nat
  reviewedAt : Option Nat
  reviewedBy : Option Nat
deriving DecidableEq, Repr

/-- The persistent store: the three MySQL tables the core touches, plus a
monotone counter modeling `uuid.New()` and JWT issued-at freshness. -/
structure Db where
  users : List User
  sessions : List Model.RefreshToken
  verifications : List IdentityVerification
  nextId : Nat
deriving DecidableEq, Repr

/-- Bcrypt hashing (internal/utils, `HashPassword`), modeled as an
injective tagging function: only injectivity and verifiability matter. -/
def HashPassword (password : String) : String :=
  "bcrypt$" ++ password

/-- Bcrypt verification (internal/utils, `CheckPassword`): true exactly
when the hash was produced from the password. -/
def CheckPassword (password hash : String) : Bool :=
  decide (hash = HashPassword password)

/-- Token codec configuration from pkg/jwt/jwt.go (`JWTManager`). Times
are in hours, so the refresh expiry is `24 * refreshExpiryDay`. -/
structure JWTManager where
  accessSecret : Nat
  refreshSecret : Nat
  accessExpiryHour : Nat
  refreshExpiryDay : Nat
deriving DecidableEq, Repr

namespace JWTManager

/-- `GetAccessTokenExpiry` (pkg/jwt/jwt.go), in hours. -/
def GetAccessTokenExpiry (j : JWTManager) : Nat :=
  j.accessExpiryHour

/-- `GetRefreshTokenExpiry` (pkg/jwt/jwt.go), in hours. -/
def GetRefreshTokenExpiry (j : JWTManager) : Nat :=
  24 * j.refreshExpiryDay

/-- `GenerateAccessToken` (pkg/jwt/jwt.go): claims from the user, expiry
`now + accessExpiryHour`, signed with the access secret. `nonce` is the
fresh value supplied by the caller (modeling issued-at uniqueness). -/
def GenerateAccessToken (j : JWTManager) (u : User) (now nonce : Nat) : Jwt :=
  { userId := u.id, username := u.username, email := u.email,
    expiresAt := now + j.accessExpiryHour, nonce := nonce, secret := j.accessSecret }

/-- `GenerateRefreshToken` (pkg/jwt/jwt.go): same claims, expiry
`now + 24 * refreshExpiryDay`, signed with the refresh secret. -/
def GenerateRefreshToken (j : JWTManager) (u : User) (now nonce : Nat) : Jwt :=
  { userId := u.id, username := u.username, email := u.email,
    expiresAt := now + 24 * j.refreshExpiryDay, nonce := nonce, secret := j.refreshSecret }

/-- `ValidateRefreshToken` (pkg/jwt/jwt.go): parsing fails when the
signature does not verify against the refresh secret or the token is
expired (jwt/v5 treats `exp <= now` as expired). The exact library error
text is environment-dependent and abstracted here. -/
def ValidateRefreshToken (j : JWTManager) (t : Jwt) (now : Nat) : Except String Jwt :=
  if t.secret = j.refreshSecret then
    if now < t.expiresAt then .ok t else .error "token is expired"
  else .error "token signature is invalid"

/-- `ValidateAccessToken` (pkg/jwt/jwt.go): same checks against the
access secret. -/
def ValidateAccessToken (j : JWTManager) (t : Jwt) (now : Nat) : Except String Jwt :=
  if t.secret = j.accessSecret then
    if now < t.expiresAt then .ok t else .error "token is expired"
  else .error "token signature is invalid"

end JWTManager

namespace AuthRepository

/-- `GetRefreshToken` (internal/repository/auth_repository.go): first row
with the given hash and `expires_at > now`; `NotFound` otherwise. -/
def GetRefreshToken (sessions : List Model.RefreshToken) (tokenHash : Jwt) (now : Nat) :
    Except String Model.RefreshToken :=
  match sessions.find? (fun s => decide (s.tokenHash = tokenHash) && decide (now < s.expiresAt)) with
  | some s => .ok s
  | Option.none => .error "refresh token not found or expired"

/-- `DeleteRefreshToken`: deletes every row with the given hash;
deleting zero rows is not an error. -/
def DeleteRefreshToken (sessions : List Model.RefreshToken) (tokenHash : Jwt) :
    List Model.RefreshToken :=
  sessions.filter (fun s => !decide (s.tokenHash = tokenHash))

/-- `DeleteUserRefreshTokens`: deletes every session of the user. -/
def DeleteUserRefreshTokens (sessions : List Model.RefreshToken) (userId : Nat) :
    List Model.RefreshToken :=
  sessions.filter (fun s => !decide (s.userId = userId))

/-- `CleanupExpiredTokens`: deletes every row with `expires_at <= now`. -/
def CleanupExpiredTokens (sessions : List Model.RefreshToken) (now : Nat) :
    List Model.RefreshToken :=
  sessions.filter (fun s => decide (now < s.expiresAt))

/-- `GetUserRefreshTokenCount`: counts the rows of the user with
`expires_at > now` (live sessions only). -/
def GetUserRefreshTokenCount (sessions : List Model.RefreshToken) (userId now : Nat) : Nat :=
  (sessions.filter (fun s => decide (s.userId = userId) && decide (now < s.expiresAt))).length

/-- The row selected by `ORDER BY created_at ASC ... First` over a list:
an element with minimal `createdAt` (the earliest such element; the SQL
tie order is unspecified). -/
def minCreated : List Model.RefreshToken → Option Model.RefreshToken
  | [] => Option.none
  | s :: rest =>
    match minCreated rest with
    | Option.none => some s
    | some b => if b.createdAt < s.createdAt then some b else some s

/-- `DeleteOldestUserRefreshToken`: finds the oldest row of the user by
`created_at` — among ALL of the user rows, expired ones included — and
deletes it (by primary key); a user with no rows is a silent no-op. -/
def DeleteOldestUserRefreshToken (sessions : List Model.RefreshToken) (userId : Nat) :
    List Model.RefreshToken :=
  match minCreated (sessions.filter (fun s => decide (s.userId = userId))) with
  | Option.none => sessions
  | some oldest => sessions.filter (fun s => !decide (s.id = oldest.id))

end AuthRepository

namespace UserRepository

/-- `GetByID` (user repository, src/unnamed/part_005). -/
def GetByID (users : List User) (id : Nat) : Except String User :=
  match users.find? (fun u => decide (u.id = id)) with
  | some u => .ok u
  | Option.none => .error "user not found"

/-- `GetByEmail` (user repository). -/
def GetByEmail (users : List User) (email : String) : Except String User :=
  match users.find? (fun u => decide (u.email = email)) with
  | some u => .ok u
  | Option.none => .error "user not found"

/-- `GetByEmailVerificationToken` (user repository): first user whose
stored token matches and whose expiry is strictly in the future; a NULL
expiry never matches. -/
def GetByEmailVerificationToken (users : List User) (token : String) (now : Nat) :
    Except String User :=
  match users.find? (fun u =>
      decide (u.emailVerificationToken = some token) &&
      (match u.emailVerificationExpiresAt with
       | some e => decide (now < e)
       | Option.none => false)) with
  | some u => .ok u
  | Option.none => .error "invalid or expired verification token"

/-- `Update` (gorm `Save`): full-record save by primary key. -/
def Update (users : List User) (user : User) : List User :=
  users.map (fun u => if u.id = user.id then user else u)

/-- `VerifyEmail` (user repository): sets the flag and clears the token
and its expiry. -/
def VerifyEmail (users : List User) (userId : Nat) : List User :=
  users.map (fun u =>
    if u.id = userId then
      { u with isEmailVerified := true,
               emailVerificationToken := Option.none,
               emailVerificationExpiresAt := Option.none }
    else u)

/-- `UpdatePassword` (user repository). -/
def UpdatePassword (users : List User) (userId : Nat) (passwordHash : String) : List User :=
  users.map (fun u => if u.id = userId then { u with passwordHash := passwordHash } else u)

end UserRepository

namespace VerificationRepository

/-- `Create` (verification repository, second file in
internal/config/config.go): inserts the record. -/
def Create (verifications : List IdentityVerification) (v : IdentityVerification) :
    List IdentityVerification :=
  verifications ++ [v]

/-- `GetByID` (verification repository). -/
def GetByID (verifications : List IdentityVerification) (verificationId : Nat) :
    Except String IdentityVerification :=
  match verifications.find? (fun v => decide (v.id = verificationId)) with
  | some v => .ok v
  | Option.none => .error "verification not found"

/-- `HasPendingVerification`: whether the user has a row with status
`pending`. -/
def HasPendingVerification (verifications : List IdentityVerification) (userId : Nat) : Bool :=
  verifications.any (fun v => decide (v.userId = userId) && decide (v.status = IdentityVerificationStatus.pending))

/-- Count reported by `GetAll` for an optional status filter (the service
only consumes the count, with a limit-1 page). -/
def GetAllCount (verifications : List IdentityVerification)
    (status : Option IdentityVerificationStatus) : Nat :=
  match status with
  | some st => (verifications.filter (fun v => decide (v.status = st))).length
  | Option.none => verifications.length

/-- `Review` (verification repository): inside one transaction, update
the verification row (status, admin notes, reviewed-at, reviewed-by), and
— ONLY when the decision is `approved` — flip the owning user to
`is_verified = true`, `identity_verification_status = approved`. A
rejected (or any non-approved) decision leaves the user row untouched.
On a failed read inside the transaction everything rolls back (error). -/
def Review (db : Db) (verificationId : Nat) (status : IdentityVerificationStatus)
    (adminNotes : Option String) (reviewedBy : Nat) (now : Nat) : Except String Db :=
  let verifications := db.verifications.map (fun v =>
    if v.id = verificationId then
      { v with status := status, adminNotes := adminNotes,
               reviewedAt := some now, reviewedBy := some reviewedBy }
    else v)
  if status = IdentityVerificationStatus.approved then
    match verifications.find? (fun v => decide (v.id = verificationId)) with
    | Option.none => .error "failed to get verification"
    | some v =>
      .ok { db with
        verifications := verifications,
        users := db.users.map (fun u =>
          if u.id = v.userId then
            { u with isVerified := true,
                     identityVerificationStatus := IdentityVerificationStatus.approved }
          else u) }
  else
    .ok { db with verifications := verifications }

/-- `Delete` (verification repository): hard delete by id; zero rows
affected is `NotFound`. -/
def Delete (verifications : List IdentityVerification) (verificationId : Nat) :
    Except String (List IdentityVerification) :=
  if verifications.any (fun v => decide (v.id = verificationId)) then
    .ok (verifications.filter (fun v => !decide (v.id = verificationId)))
  else
    .error "verification not found"

end VerificationRepository

/-- Public profile assembled by `UserRepository.GetProfile` (only the
fields the auth flows surface are modeled). -/
structure UserProfile where
  id : Nat
  username : String
  isVerified : Bool
deriving DecidableEq, Repr

/-- `GetProfile` (user repository): profile of the user by id. -/
def GetProfile (users : List User) (userId : Nat) : Except String UserProfile :=
  match users.find? (fun u => decide (u.id = userId)) with
  | some u => .ok { id := u.id, username := u.username, isVerified := u.isVerified }
  | Option.none => .error "failed to get user profile"

/-- `model.AuthResponse`: token pair plus profile and access expiry. -/
structure AuthResponse where
  accessToken : Jwt
  refreshToken : Jwt
  user : UserProfile
  expiresIn : Nat
deriving DecidableEq, Repr

/-- Boolean success observer for `Except` results. -/
def isOk {α : Type} : Except String α → Bool
  | .ok _ => true
  | .error _ => false

/-- State reached by an operation returning a value and a new store:
the new store on success, the unchanged input store on error. -/
def okVDb {α : Type} (r : Except String (α × Db)) (db : Db) : Db :=
  match r with
  | .ok (_, d) => d
  | .error _ => db

/-- State reached by an operation returning only a new store. -/
def okDb (r : Except String Db) (db : Db) : Db :=
  match r with
  | .ok d => d
  | .error _ => db

namespace AuthService

/-- `hashToken` (internal/service/auth_service.go): the SHA-256 hex
digest of the raw token. SHA-256 is modeled as an injective function, so
the identity embedding of the token value is used. -/
def hashToken (token : Jwt) : Jwt :=
  token

/-- The session row built by `storeRefreshToken`: fresh uuid, the token
hash, `expires_at = now + refresh expiry`, `created_at = now`. -/
def newSessionRecord (j : JWTManager) (db : Db) (userId : Nat) (refreshToken : Jwt)
    (now : Nat) : Model.RefreshToken :=
  { id := db.nextId, userId := userId, tokenHash := hashToken refreshToken,
    expiresAt := now + JWTManager.GetRefreshTokenExpiry j, createdAt := now }

/-- `storeRefreshToken` (internal/service/auth_service.go): if the LIVE
session count of the user is at least 5, delete the oldest row (oldest by
creation among all rows, expired included), then insert the new row. -/
def storeRefreshToken (j : JWTManager) (db : Db) (userId : Nat) (refreshToken : Jwt)
    (now : Nat) : Db :=
  let count := AuthRepository.GetUserRefreshTokenCount db.sessions userId now
  let sessions :=
    if 5 ≤ count then AuthRepository.DeleteOldestUserRefreshToken db.sessions userId
    else db.sessions
  { db with sessions := sessions ++ [newSessionRecord j db userId refreshToken now],
            nextId := db.nextId + 1 }

/-- `Login` (internal/service/auth_service.go): both the failed email
lookup and the failed password check collapse to the same generic
message; on success a fresh token pair is minted and the refresh session
stored (subject to the 5-cap inside `storeRefreshToken`). -/
def Login (j : JWTManager) (db : Db) (email password : String) (now : Nat) :
    Except String (AuthResponse × Db) :=
  match UserRepository.GetByEmail db.users email with
  | .error _ => .error "invalid email or password"
  | .ok user =>
    if CheckPassword password user.passwordHash then
      let accessToken := JWTManager.GenerateAccessToken j user now db.nextId
      let refreshToken := JWTManager.GenerateRefreshToken j user now (db.nextId + 1)
      let db1 : Db := { db with nextId := db.nextId + 2 }
      let db2 := storeRefreshToken j db1 user.id refreshToken now
      match GetProfile db2.users user.id with
      | .error e => .error e
      | .ok profile =>
        .ok ({ accessToken := accessToken, refreshToken := refreshToken,
               user := profile, expiresIn := JWTManager.GetAccessTokenExpiry j }, db2)
    else .error "invalid email or password"

/-- `RefreshToken` (internal/service/auth_service.go): validate the JWT,
look the hash up in the session store, load the user, mint a new pair,
delete the old session row and store the new one (two separate writes,
no enclosing transaction). Each failure cause has its own message. -/
def RefreshToken (j : JWTManager) (db : Db) (t : Jwt) (now : Nat) :
    Except String (AuthResponse × Db) :=
  match JWTManager.ValidateRefreshToken j t now with
  | .error e => .error ("invalid refresh token: " ++ e)
  | .ok _ =>
    match AuthRepository.GetRefreshToken db.sessions (hashToken t) now with
    | .error _ => .error "refresh token not found or expired"
    | .ok storedToken =>
      match UserRepository.GetByID db.users storedToken.userId with
      | .error _ => .error "user not found"
      | .ok user =>
        let accessToken := JWTManager.GenerateAccessToken j user now db.nextId
        let newRefreshToken := JWTManager.GenerateRefreshToken j user now (db.nextId + 1)
        let db1 : Db := { db with nextId := db.nextId + 2 }
        let db2 : Db := { db1 with
          sessions := AuthRepository.DeleteRefreshToken db1.sessions (hashToken t) }
        let db3 := storeRefreshToken j db2 user.id newRefreshToken now
        match GetProfile db3.users user.id with
        | .error e => .error e
        | .ok profile =>
          .ok ({ accessToken := accessToken, refreshToken := newRefreshToken,
                 user := profile, expiresIn := JWTManager.GetAccessTokenExpiry j }, db3)

/-- `Logout` (internal/service/auth_service.go). -/
def Logout (db : Db) (refreshToken : Jwt) : Db :=
  { db with sessions := AuthRepository.DeleteRefreshToken db.sessions (hashToken refreshToken) }

/-- `LogoutAll` (internal/service/auth_service.go). -/
def LogoutAll (db : Db) (userId : Nat) : Db :=
  { db with sessions := AuthRepository.DeleteUserRefreshTokens db.sessions userId }

/-- `VerifyEmail` (internal/service/auth_service.go): look the user up by
non-expired verification token, reject an already-verified user, else set
the flag and clear the token and expiry. -/
def VerifyEmail (db : Db) (token : String) (now : Nat) : Except String Db :=
  match UserRepository.GetByEmailVerificationToken db.users token now with
  | .error _ => .error "invalid or expired verification token"
  | .ok user =>
    if user.isEmailVerified then .error "email already verified"
    else .ok { db with users := UserRepository.VerifyEmail db.users user.id }

/-- `ChangePassword` (internal/service/auth_service.go): check the
current password, update the hash, then delete every session of the user
(forced logout from all devices). -/
def ChangePassword (db : Db) (userId : Nat) (currentPassword newPassword : String) :
    Except String Db :=
  match UserRepository.GetByID db.users userId with
  | .error _ => .error "user not found"
  | .ok user =>
    if CheckPassword currentPassword user.passwordHash then
      let newHash := HashPassword newPassword
      let db1 : Db := { db with users := UserRepository.UpdatePassword db.users user.id newHash }
      let db2 : Db := { db1 with
        sessions := AuthRepository.DeleteUserRefreshTokens db1.sessions user.id }
      .ok db2
    else .error "current password is incorrect"

/-- The successive contents of the session table during the rotation step
of `RefreshToken` (delete the old row; inside `storeRefreshToken`, evict
the oldest if at the cap; insert the new row). Each entry of the list is
reached by one more committed write — the source wraps none of these
writes in a transaction. `newRefreshToken` is the freshly minted token
and `userId` the owning user, as in `RefreshToken`. -/
def rotationStates (j : JWTManager) (db : Db) (t newRefreshToken : Jwt)
    (userId now : Nat) : List (List Model.RefreshToken) :=
  let s1 := AuthRepository.DeleteRefreshToken db.sessions (hashToken t)
  let count := AuthRepository.GetUserRefreshTokenCount s1 userId now
  let s2 := if 5 ≤ count then AuthRepository.DeleteOldestUserRefreshToken s1 userId else s1
  let db2 : Db := { db with sessions := s1, nextId := db.nextId + 2 }
  [db.sessions, s1, s2,
   s2 ++ [newSessionRecord j db2 userId newRefreshToken now]]

/-- Outcome of the rotation inside `RefreshToken` in the run where the
final `CreateRefreshToken` insert fails: the source returns the wrapped
storage error to the caller, and the already-committed deletes — the old
session row, plus the evicted oldest row when the cap was reached — are
not rolled back (there is no transaction and no compensation code). -/
def rotationWithInsertFault (db : Db) (t : Jwt) (userId now : Nat) :
    String × List Model.RefreshToken :=
  let s1 := AuthRepository.DeleteRefreshToken db.sessions (hashToken t)
  let count := AuthRepository.GetUserRefreshTokenCount s1 userId now
  let s2 := if 5 ≤ count then AuthRepository.DeleteOldestUserRefreshToken s1 userId else s1
  ("failed to store new refresh token: create failed", s2)

/-- Observer: whether the user exists and the supplied current password
verifies against the stored hash (the check `ChangePassword` performs). -/
def currentPasswordOk (db : Db) (userId : Nat) (current : String) : Bool :=
  match UserRepository.GetByID db.users userId with
  | .ok u => CheckPassword current u.passwordHash
  | .error _ => false

end AuthService

/-- The spec invariant on one user row: the trust flag is set exactly
when the identity-verification status is `approved`. -/
def userInv (u : User) : Prop :=
  u.isVerified = true ↔ u.identityVerificationStatus = IdentityVerificationStatus.approved

instance (u : User) : Decidable (userInv u) := by
  unfold userInv
  infer_instance

/-- The spec invariant over the whole user table. -/
def dbInv (db : Db) : Prop :=
  ∀ u ∈ db.users, userInv u

instance (db : Db) : Decidable (dbInv db) := by
  unfold dbInv
  exact List.decidableBAll _ _

namespace VerificationService

/-- `model.SubmitIdentityVerificationRequest`. -/
structure SubmitIdentityVerificationRequest where
  fullName : String
  idNumber : String
  idType : IdentityDocumentType
  frontImageURL : String
  backImageURL : Option String
  selfieImageURL : String
deriving DecidableEq, Repr

/-- `SubmitIdentityVerification`
(internal/service/verification_service.go): reject a duplicate pending
submission or an already-verified user; the email-verified flag is NOT
checked here. Creates the pending record, mirrors `pending` onto the user
row, and returns the stored record. -/
def SubmitIdentityVerification (db : Db) (userId : Nat)
    (req : SubmitIdentityVerificationRequest) (now : Nat) :
    Except String (IdentityVerification × Db) :=
  if VerificationRepository.HasPendingVerification db.verifications userId then
    .error "you already have a pending verification request"
  else
    match UserRepository.GetByID db.users userId with
    | .error _ => .error "user not found"
    | .ok user =>
      if user.isVerified then .error "user is already verified"
      else
        let verification : IdentityVerification :=
          { id := db.nextId, userId := userId, fullName := req.fullName,
            idNumber := req.idNumber, idType := req.idType,
            frontImageURL := req.frontImageURL, backImageURL := req.backImageURL,
            selfieImageURL := req.selfieImageURL,
            status := IdentityVerificationStatus.pending, adminNotes := Option.none,
            submittedAt := now, reviewedAt := Option.none, reviewedBy := Option.none }
        let db1 : Db := { db with
          verifications := VerificationRepository.Create db.verifications verification,
          nextId := db.nextId + 1 }
        let user1 : User := { user with
          identityVerificationStatus := IdentityVerificationStatus.pending }
        let db2 : Db := { db1 with users := UserRepository.Update db1.users user1 }
        match VerificationRepository.GetByID db2.verifications verification.id with
        | .error e => .error e
        | .ok v => .ok (v, db2)

/-- `CanSubmitVerification`
(internal/service/verification_service.go): composite precondition check;
unlike `SubmitIdentityVerification` it also requires the email to be
verified. Returns the flag with the reason string. -/
def CanSubmitVerification (db : Db) (userId : Nat) : Bool × String :=
  match UserRepository.GetByID db.users userId with
  | .error _ => (false, "User not found")
  | .ok user =>
    if user.isVerified then (false, "User is already verified")
    else if !user.isEmailVerified then
      (false, "Email must be verified before submitting identity verification")
    else if VerificationRepository.HasPendingVerification db.verifications userId then
      (false, "A verification request is already pending")
    else (true, "Can submit verification")

/-- `ReviewVerification`
(internal/service/verification_service.go): reject review of anything not
pending, delegate to the repository transaction, then re-read the record.
The approval email is fire-and-forget and has no state effect. -/
def ReviewVerification (db : Db) (verificationId reviewedBy : Nat)
    (reqStatus : IdentityVerificationStatus) (adminNotes : Option String) (now : Nat) :
    Except String (IdentityVerification × Db) :=
  match VerificationRepository.GetByID db.verifications verificationId with
  | .error _ => .error "verification not found"
  | .ok verification =>
    if verification.status ≠ IdentityVerificationStatus.pending then
      .error "verification has already been reviewed"
    else
      match VerificationRepository.Review db verificationId reqStatus adminNotes reviewedBy now with
      | .error e => .error ("failed to review verification: " ++ e)
      | .ok db1 =>
        match VerificationRepository.GetByID db1.verifications verificationId with
        | .error e => .error e
        | .ok v => .ok (v, db1)

/-- `calculateApprovalRate`
(internal/service/verification_service.go); float64 arithmetic modeled
exactly over the rationals. -/
def calculateApprovalRate (approved total : Nat) : ℚ :=
  if total = 0 then 0 else (approved : ℚ) / (total : ℚ) * 100

/-- Stats map assembled by `GetVerificationStats`. -/
structure VerificationStats where
  totalSubmissions : Nat
  pendingSubmissions : Nat
  approvedSubmissions : Nat
  rejectedSubmissions : Nat
  approvalRate : ℚ
deriving DecidableEq, Repr

/-- `GetVerificationStats`
(internal/service/verification_service.go): per-status counts from the
repository, total as their sum, approval rate from
`calculateApprovalRate`. -/
def GetVerificationStats (db : Db) : VerificationStats :=
  let pendingCount :=
    VerificationRepository.GetAllCount db.verifications (some IdentityVerificationStatus.pending)
  let approvedCount :=
    VerificationRepository.GetAllCount db.verifications (some IdentityVerificationStatus.approved)
  let rejectedCount :=
    VerificationRepository.GetAllCount db.verifications (some IdentityVerificationStatus.rejected)
  let totalCount := pendingCount + approvedCount + rejectedCount
  { totalSubmissions := totalCount, pendingSubmissions := pendingCount,
    approvedSubmissions := approvedCount, rejectedSubmissions := rejectedCount,
    approvalRate := calculateApprovalRate approvedCount totalCount }

/-- `DeleteVerification`
(internal/service/verification_service.go): delegates to the repository
delete; the user row mirroring the status is NOT touched. -/
def DeleteVerification (db : Db) (verificationId : Nat) : Except String Db :=
  match VerificationRepository.Delete db.verifications verificationId with
  | .error e => .error ("failed to delete verification: " ++ e)
  | .ok vs => .ok { db with verifications := vs }

end VerificationService

/-! Concrete fixtures used by counterexamples and witnesses. -/

/-- Example codec configuration: distinct secrets, 1h access tokens,
1-day (24h) refresh tokens. -/
def cfg1 : JWTManager :=
  { accessSecret := 1, refreshSecret := 2, accessExpiryHour := 1, refreshExpiryDay := 1 }

/-- Example user with a known password. -/
def aliceU : User :=
  { id := 1, username := "alice", email := "a@x", passwordHash := HashPassword "p",
    fullName := "Alice", isVerified := false, isEmailVerified := true,
    emailVerificationToken := Option.none, emailVerificationExpiresAt := Option.none,
    identityVerificationStatus := IdentityVerificationStatus.none }

/-- Store holding only `aliceU`, no sessions. -/
def capDb0 : Db :=
  { users := [aliceU], sessions := [], verifications := [], nextId := 10 }

/-- One successful login of `aliceU` at the given time (state after
`Login`; a failed login would leave the state unchanged). -/
def loginAt (db : Db) (now : Nat) : Db :=
  okVDb (AuthService.Login cfg1 db "a@x" "p" now) db

/-- Store after logins of the same user at hours 0, 1, 2, 3, 4, 24, 24.
The session created at hour 0 expires at hour 24, so at the 7th login the
live count is 5 but the oldest row by creation time is the EXPIRED one —
it, not a live session, gets evicted. -/
def capDbFinal : Db :=
  [0, 1, 2, 3, 4, 24, 24].foldl loginAt capDb0

/-- A refresh token of `aliceU` signed with the refresh secret of
`cfg1`. -/
def tokW : Jwt :=
  { userId := 1, username := "alice", email := "a@x", expiresAt := 50, nonce := 3, secret := 2 }

/-- Session row backing `tokW`. -/
def sessW : Model.RefreshToken :=
  { id := 5, userId := 1, tokenHash := AuthService.hashToken tokW, expiresAt := 100, createdAt := 0 }

/-- Store holding `aliceU` with the single live session `sessW`. -/
def dbW : Db :=
  { users := [aliceU], sessions := [sessW], verifications := [], nextId := 7 }

/-- A refresh token whose session row names a user id (99) that is
missing from the user table. -/
def tokOrphan : Jwt :=
  { userId := 99, username := "x", email := "x", expiresAt := 50, nonce := 0, secret := 2 }

/-- Store with a session for `tokOrphan` but an empty user table: the
stored-hash lookup succeeds and the user lookup fails. -/
def dbOrphan : Db :=
  { users := [],
    sessions := [{ id := 1, userId := 99, tokenHash := AuthService.hashToken tokOrphan,
                   expiresAt := 100, createdAt := 0 }],
    verifications := [], nextId := 5 }

/-- Store with no sessions at all: the stored-hash lookup fails. -/
def dbEmptySessions : Db :=
  { users := [], sessions := [], verifications := [], nextId := 5 }

/-- User with a pending identity verification mirrored on the row. -/
def pendUser : User :=
  { id := 7, username := "bob", email := "b@x", passwordHash := HashPassword "q",
    fullName := "Bob", isVerified := false, isEmailVerified := true,
    emailVerificationToken := Option.none, emailVerificationExpiresAt := Option.none,
    identityVerificationStatus := IdentityVerificationStatus.pending }

/-- Pending verification record of `pendUser`. -/
def pendVerif : IdentityVerification :=
  { id := 1, userId := 7, fullName := "Bob B", idNumber := "123",
    idType := IdentityDocumentType.passport, frontImageURL := "f",
    backImageURL := Option.none, selfieImageURL := "s",
    status := IdentityVerificationStatus.pending, adminNotes := Option.none,
    submittedAt := 0, reviewedAt := Option.none, reviewedBy := Option.none }

/-- Store with `pendUser` and their pending submission. -/
def dbPend : Db :=
  { users := [pendUser], sessions := [], verifications := [pendVerif], nextId := 20 }

/-- User whose email is NOT verified, with no verification yet. -/
def noEmailUser : User :=
  { id := 8, username := "dave", email := "d@x", passwordHash := HashPassword "z",
    fullName := "Dave", isVerified := false, isEmailVerified := false,
    emailVerificationToken := Option.none, emailVerificationExpiresAt := Option.none,
    identityVerificationStatus := IdentityVerificationStatus.none }

/-- Store holding only `noEmailUser`. -/
def dbNoEmail : Db :=
  { users := [noEmailUser], sessions := [], verifications := [], nextId := 30 }

/-- A submission request payload. -/
def reqSub : VerificationService.SubmitIdentityVerificationRequest :=
  { fullName := "Dave D", idNumber := "9", idType := IdentityDocumentType.national_id,
    frontImageURL := "f", backImageURL := Option.none, selfieImageURL := "s" }

/-- User with a pending, unexpired email-verification token. -/
def emailUser : User :=
  { id := 3, username := "carol", email := "c@x", passwordHash := HashPassword "w",
    fullName := "Carol", isVerified := false, isEmailVerified := false,
    emailVerificationToken := some "tok123", emailVerificationExpiresAt := some 10,
    identityVerificationStatus := IdentityVerificationStatus.none }

/-- Store holding only `emailUser`. -/
def dbEmail : Db :=
  { users := [emailUser], sessions := [], verifications := [], nextId := 40 }

/-- Five live sessions of user 1 with distinct ids and creation times. -/
def fiveSessions : List Model.RefreshToken :=
  [{ id := 1, userId := 1, tokenHash := tokW, expiresAt := 100, createdAt := 1 },
   { id := 2, userId := 1, tokenHash := tokW, expiresAt := 100, createdAt := 2 },
   { id := 3, userId := 1, tokenHash := tokW, expiresAt := 100, createdAt := 3 },
   { id := 4, userId := 1, tokenHash := tokW, expiresAt := 100, createdAt := 4 },
   { id := 5, userId := 1, tokenHash := tokW, expiresAt := 100, createdAt := 5 }]

/-- Store where user 1 is exactly at the 5-session cap, all live. -/
def dbAtCap : Db :=
  { users := [aliceU], sessions := fiveSessions, verifications := [], nextId := 50 }

end VieTick
namespace VieTick

theorem isOk_iff_exists {α : Type} (e : Except String α) : isOk e = true ↔ ∃ a, e = .ok a := by
  cases e <;> simp [isOk]

theorem validateRefreshToken_ok (j : JWTManager) (t c : Jwt) (now : Nat)
    (h : JWTManager.ValidateRefreshToken j t now = .ok c) :
    c = t ∧ t.secret = j.refreshSecret ∧ now < t.expiresAt := by
  by_cases h1 : t.secret = j.refreshSecret
  · by_cases h2 : now < t.expiresAt
    · simp [JWTManager.ValidateRefreshToken, h1, h2] at h
      exact ⟨h.symm, h1, h2⟩
    · simp [JWTManager.ValidateRefreshToken, h1, h2] at h
  · simp [JWTManager.ValidateRefreshToken, h1] at h

theorem validateRefreshToken_ok_of (j : JWTManager) (t : Jwt) (now : Nat)
    (h1 : t.secret = j.refreshSecret) (h2 : now < t.expiresAt) :
    JWTManager.ValidateRefreshToken j t now = .ok t := by
  simp [JWTManager.ValidateRefreshToken, h1, h2]

theorem getRefreshToken_ok (sessions : List Model.RefreshToken) (h : Jwt) (now : Nat)
    (s : Model.RefreshToken)
    (hs : AuthRepository.GetRefreshToken sessions h now = .ok s) :
    s ∈ sessions ∧ s.tokenHash = h ∧ now < s.expiresAt := by
  unfold AuthRepository.GetRefreshToken at hs
  cases hf : sessions.find? (fun x => decide (x.tokenHash = h) && decide (now < x.expiresAt)) with
  | none => rw [hf] at hs; cases hs
  | some x =>
    rw [hf] at hs
    have hx : x = s := by cases hs; rfl
    subst hx
    have hp := List.find?_some hf
    have hm := List.mem_of_find?_eq_some hf
    simp only [Bool.and_eq_true, decide_eq_true_eq] at hp
    exact ⟨hm, hp.1, hp.2⟩

theorem getRefreshToken_none (sessions : List Model.RefreshToken) (h : Jwt) (now : Nat)
    (hall : ∀ s ∈ sessions, ¬(s.tokenHash = h)) :
    AuthRepository.GetRefreshToken sessions h now = .error "refresh token not found or expired" := by
  unfold AuthRepository.GetRefreshToken
  have hf : sessions.find? (fun s => decide (s.tokenHash = h) && decide (now < s.expiresAt))
      = Option.none := by
    rw [List.find?_eq_none]
    intro x hx
    simp [hall x hx]
  rw [hf]

theorem getByID_ok (users : List User) (id : Nat) (u : User)
    (h : UserRepository.GetByID users id = .ok u) : u ∈ users ∧ u.id = id := by
  unfold UserRepository.GetByID at h
  cases hf : users.find? (fun x => decide (x.id = id)) with
  | none => rw [hf] at h; cases h
  | some x =>
    rw [hf] at h
    have hx : x = u := by cases h; rfl
    subst hx
    have hp := List.find?_some hf
    have hm := List.mem_of_find?_eq_some hf
    simp only [decide_eq_true_eq] at hp
    exact ⟨hm, hp⟩

theorem mem_deleteRefreshToken (sessions : List Model.RefreshToken) (h : Jwt)
    (x : Model.RefreshToken) (hx : x ∈ AuthRepository.DeleteRefreshToken sessions h) :
    x ∈ sessions ∧ ¬(x.tokenHash = h) := by
  unfold AuthRepository.DeleteRefreshToken at hx
  simp only [List.mem_filter, Bool.not_eq_true', decide_eq_false_iff_not] at hx
  exact hx

theorem mem_deleteOldest (sessions : List Model.RefreshToken) (uid : Nat)
    (x : Model.RefreshToken)
    (hx : x ∈ AuthRepository.DeleteOldestUserRefreshToken sessions uid) : x ∈ sessions := by
  unfold AuthRepository.DeleteOldestUserRefreshToken at hx
  cases hm : AuthRepository.minCreated (sessions.filter fun s => decide (s.userId = uid)) with
  | none => rw [hm] at hx; exact hx
  | some o =>
    rw [hm] at hx
    exact (List.mem_filter.mp hx).1

theorem mem_deleteUserRefreshTokens (sessions : List Model.RefreshToken) (uid : Nat)
    (x : Model.RefreshToken)
    (hx : x ∈ AuthRepository.DeleteUserRefreshTokens sessions uid) :
    x ∈ sessions ∧ ¬(x.userId = uid) := by
  unfold AuthRepository.DeleteUserRefreshTokens at hx
  simp only [List.mem_filter, Bool.not_eq_true', decide_eq_false_iff_not] at hx
  exact hx

theorem mem_storeRefreshToken (j : JWTManager) (db : Db) (uid : Nat) (tok : Jwt) (now : Nat)
    (x : Model.RefreshToken)
    (hx : x ∈ (AuthService.storeRefreshToken j db uid tok now).sessions) :
    x ∈ db.sessions ∨ x = AuthService.newSessionRecord j db uid tok now := by
  unfold AuthService.storeRefreshToken at hx
  simp only [List.mem_append, List.mem_singleton] at hx
  rcases hx with hx | hx
  · split at hx
    · exact Or.inl (mem_deleteOldest _ _ _ hx)
    · exact Or.inl hx
  · exact Or.inr hx

end VieTick
namespace VieTick

theorem minCreated_cons_none (a : Model.RefreshToken) (rest : List Model.RefreshToken)
    (hm : AuthRepository.minCreated rest = Option.none) :
    AuthRepository.minCreated (a :: rest) = some a := by
  unfold AuthRepository.minCreated
  rw [hm]

theorem minCreated_cons_some (a b : Model.RefreshToken) (rest : List Model.RefreshToken)
    (hm : AuthRepository.minCreated rest = some b) :
    AuthRepository.minCreated (a :: rest)
      = (if b.createdAt < a.createdAt then some b else some a) := by
  unfold AuthRepository.minCreated
  rw [hm]

theorem minCreated_cons_ne_none (a : Model.RefreshToken) (rest : List Model.RefreshToken) :
    AuthRepository.minCreated (a :: rest) ≠ Option.none := by
  cases hm : AuthRepository.minCreated rest with
  | none => rw [minCreated_cons_none a rest hm]; simp
  | some b =>
    rw [minCreated_cons_some a b rest hm]
    split <;> simp

theorem minCreated_mem (l : List Model.RefreshToken) (o : Model.RefreshToken)
    (h : AuthRepository.minCreated l = some o) : o ∈ l := by
  induction l generalizing o with
  | nil => cases h
  | cons a rest ih =>
    cases hm : AuthRepository.minCreated rest with
    | none =>
      rw [minCreated_cons_none a rest hm] at h
      have ha : a = o := by injection h
      subst ha
      exact List.mem_cons_self a rest
    | some b =>
      rw [minCreated_cons_some a b rest hm] at h
      by_cases hlt : b.createdAt < a.createdAt
      · rw [if_pos hlt] at h
        have hb : b = o := by injection h
        subst hb
        exact List.mem_cons_of_mem a (ih b hm)
      · rw [if_neg hlt] at h
        have ha : a = o := by injection h
        subst ha
        exact List.mem_cons_self a rest

theorem minCreated_le (l : List Model.RefreshToken) (o : Model.RefreshToken)
    (h : AuthRepository.minCreated l = some o) :
    ∀ x ∈ l, o.createdAt ≤ x.createdAt := by
  induction l generalizing o with
  | nil => cases h
  | cons a rest ih =>
    cases hm : AuthRepository.minCreated rest with
    | none =>
      rw [minCreated_cons_none a rest hm] at h
      have ha : a = o := by injection h
      subst ha
      intro x hx
      rcases List.mem_cons.mp hx with rfl | hx
      · exact Nat.le_refl _
      · cases rest with
        | nil => cases hx
        | cons c cr => exact absurd hm (minCreated_cons_ne_none c cr)
    | some b =>
      rw [minCreated_cons_some a b rest hm] at h
      by_cases hlt : b.createdAt < a.createdAt
      · rw [if_pos hlt] at h
        have hb : b = o := by injection h
        subst hb
        intro x hx
        rcases List.mem_cons.mp hx with rfl | hx
        · exact Nat.le_of_lt hlt
        · exact ih b hm x hx
      · rw [if_neg hlt] at h
        have ha : a = o := by injection h
        subst ha
        intro x hx
        rcases List.mem_cons.mp hx with rfl | hx
        · exact Nat.le_refl _
        · exact Nat.le_trans (Nat.le_of_not_lt hlt) (ih b hm x hx)

theorem minCreated_isSome (l : List Model.RefreshToken) (h : l ≠ []) :
    ∃ o, AuthRepository.minCreated l = some o := by
  cases l with
  | nil => exact absurd rfl h
  | cons a rest =>
    cases hm : AuthRepository.minCreated (a :: rest) with
    | none => exact absurd hm (minCreated_cons_ne_none a rest)
    | some o => exact ⟨o, rfl⟩

end VieTick
namespace VieTick

theorem find?_update_id (l : List IdentityVerification) (vid : Nat)
    (g : IdentityVerification → IdentityVerification) (hg : ∀ w, (g w).id = w.id)
    (v : IdentityVerification)
    (h : l.find? (fun w => decide (w.id = vid)) = some v) :
    (l.map (fun w => if w.id = vid then g w else w)).find? (fun w => decide (w.id = vid))
      = some (g v) := by
  induction l with
  | nil => cases h
  | cons a rest ih =>
    by_cases ha : a.id = vid
    · rw [List.find?_cons_of_pos _ (by simpa using ha)] at h
      have hv : a = v := by injection h
      subst hv
      rw [List.map_cons, if_pos ha]
      exact List.find?_cons_of_pos _ (by simp [hg, ha])
    · rw [List.find?_cons_of_neg _ (by simpa using ha)] at h
      rw [List.map_cons, if_neg ha]
      rw [List.find?_cons_of_neg _ (by simpa using ha)]
      exact ih h

theorem length_filter_erase_id (l : List Model.RefreshToken) (o : Model.RefreshToken)
    (P : Model.RefreshToken → Bool)
    (hnd : (l.map Model.RefreshToken.id).Nodup) (ho : o ∈ l) :
    ((l.filter (fun s => !decide (s.id = o.id))).filter P).length
        + (if P o then 1 else 0)
      = (l.filter P).length := by
  induction l with
  | nil => cases ho
  | cons a rest ih =>
    rw [List.map_cons, List.nodup_cons] at hnd
    obtain ⟨hna, hndr⟩ := hnd
    rcases List.mem_cons.mp ho with rfl | hor
    · have hrest : rest.filter (fun s => !decide (s.id = o.id)) = rest := by
        apply List.filter_eq_self.mpr
        intro s hs
        simp only [Bool.not_eq_true', decide_eq_false_iff_not]
        intro hda
        exact hna (hda ▸ List.mem_map_of_mem Model.RefreshToken.id hs)
      have h1 : (o :: rest).filter (fun s => !decide (s.id = o.id)) = rest := by
        rw [List.filter_cons]
        simp [hrest]
      rw [h1, List.filter_cons]
      by_cases hpo : P o = true
      · rw [if_pos hpo, if_pos hpo]
        simp
      · rw [if_neg hpo, if_neg hpo]
        simp
    · have haid : ¬(a.id = o.id) := by
        intro he
        exact hna (he ▸ List.mem_map_of_mem Model.RefreshToken.id hor)
      have hih := ih hndr hor
      have h1 : (a :: rest).filter (fun s => !decide (s.id = o.id))
          = a :: rest.filter (fun s => !decide (s.id = o.id)) := by
        rw [List.filter_cons]
        simp [haid]
      rw [h1, List.filter_cons, List.filter_cons]
      by_cases hpa : P a = true
      · rw [if_pos hpa, if_pos hpa]
        simp only [List.length_cons]
        omega
      · rw [if_neg hpa, if_neg hpa]
        exact hih

end VieTick
namespace VieTick

/-- C9: for every store, `GetVerificationStats` reports a total equal to
pending + approved + rejected, each count equal to the number of records
with that status, and an approval rate equal to approved divided by total
times 100 (over the rationals, modeling the float64), and 0 when the
total is 0. -/
theorem getVerificationStats_spec (db : Db) :
    (VerificationService.GetVerificationStats db).totalSubmissions
        = (VerificationService.GetVerificationStats db).pendingSubmissions
          + (VerificationService.GetVerificationStats db).approvedSubmissions
          + (VerificationService.GetVerificationStats db).rejectedSubmissions ∧
    (VerificationService.GetVerificationStats db).pendingSubmissions
        = (db.verifications.filter
            (fun v => decide (v.status = IdentityVerificationStatus.pending))).length ∧
    (VerificationService.GetVerificationStats db).approvedSubmissions
        = (db.verifications.filter
            (fun v => decide (v.status = IdentityVerificationStatus.approved))).length ∧
    (VerificationService.GetVerificationStats db).rejectedSubmissions
        = (db.verifications.filter
            (fun v => decide (v.status = IdentityVerificationStatus.rejected))).length ∧
    (VerificationService.GetVerificationStats db).approvalRate
        = (if (VerificationService.GetVerificationStats db).totalSubmissions = 0 then 0
           else ((VerificationService.GetVerificationStats db).approvedSubmissions : ℚ)
                / ((VerificationService.GetVerificationStats db).totalSubmissions : ℚ) * 100) :=
  ⟨rfl, rfl, rfl, rfl, rfl⟩

/-- C1 counterexample: a concrete sequence of successful logins of one
user (at hours 0, 1, 2, 3, 4, 24, 24) after which the user holds SIX
live (non-expired) sessions at hour 24 — the eviction at the seventh
login removed the EXPIRED session created at hour 0 (the oldest by
creation time) instead of a live one, so the live-session count exceeds
the claimed cap of 5. -/
theorem sixth_login_live_cap_cex :
    AuthRepository.GetUserRefreshTokenCount capDbFinal.sessions 1 24 = 6 := by
  decide

/-- C3 counterexample: two failing `RefreshToken` calls whose messages
differ by cause — a failed user lookup returns one message and a failed
stored-hash lookup another — refuting the claim that refresh failures
share one identical generic message. -/
theorem refresh_failure_messages_differ_cex :
    AuthService.RefreshToken cfg1 dbOrphan tokOrphan 0 = .error "user not found" ∧
    AuthService.RefreshToken cfg1 dbEmptySessions tokOrphan 0
        = .error "refresh token not found or expired" ∧
    ("user not found" : String) ≠ "refresh token not found or expired" :=
  ⟨rfl, rfl, by decide⟩

/-- C4 counterexample: reviewing a concrete pending verification with
decision rejected succeeds, yet the owning user keeps
identity_verification_status = pending — the claim that the user status
becomes rejected is false. -/
theorem review_rejected_user_status_cex :
    isOk (VerificationService.ReviewVerification dbPend 1 9
        IdentityVerificationStatus.rejected Option.none 5) = true ∧
    ((okVDb (VerificationService.ReviewVerification dbPend 1 9
          IdentityVerificationStatus.rejected Option.none 5) dbPend).users.find?
        (fun u => decide (u.id = 7))).map User.identityVerificationStatus
      = some IdentityVerificationStatus.pending :=
  ⟨by decide, by decide⟩

/-- C7 counterexample: in the run where the insert step of the rotation
fails, the session state is NOT left unchanged — the old (previously
valid) session row is already deleted and the table differs from the
initial one, refuting the atomicity claim. -/
theorem rotation_insert_failure_cex :
    isOk (AuthRepository.GetRefreshToken dbW.sessions (AuthService.hashToken tokW) 0) = true ∧
    (AuthService.rotationWithInsertFault dbW tokW 1 0).2 = [] ∧
    dbW.sessions ≠ [] :=
  ⟨by decide, by decide, by decide⟩

end VieTick
namespace VieTick

theorem getByID_create_fresh (l : List IdentityVerification) (v : IdentityVerification)
    (hfresh : ∀ w ∈ l, ¬(w.id = v.id)) :
    VerificationRepository.GetByID (VerificationRepository.Create l v) v.id = .ok v := by
  unfold VerificationRepository.GetByID VerificationRepository.Create
  have hfind : (l ++ [v]).find? (fun w => decide (w.id = v.id)) = some v := by
    induction l with
    | nil => simp [List.find?]
    | cons a rest ih =>
      rw [List.cons_append, List.find?_cons_of_neg]
      · exact ih (fun w hw => hfresh w (List.mem_cons_of_mem a hw))
      · simp [hfresh a (List.mem_cons_self a rest)]
  rw [hfind]

/-- C10: for a user whose email is not verified, with no pending
submission and not already verified, SubmitIdentityVerification succeeds
and creates a pending record, while CanSubmitVerification returns false
for the same user with the email-must-be-verified reason: the email
precondition is enforced only by CanSubmit. -/
theorem submit_ignores_email_verification
    (db : Db) (uid : Nat) (req : VerificationService.SubmitIdentityVerificationRequest)
    (now : Nat) (u : User)
    (hu : UserRepository.GetByID db.users uid = .ok u)
    (hemail : u.isEmailVerified = false)
    (hver : u.isVerified = false)
    (hpend : VerificationRepository.HasPendingVerification db.verifications uid = false)
    (hfresh : ∀ v ∈ db.verifications, ¬(v.id = db.nextId)) :
    (∃ v db2, VerificationService.SubmitIdentityVerification db uid req now = .ok (v, db2) ∧
        v.status = IdentityVerificationStatus.pending ∧ v.userId = uid) ∧
    VerificationService.CanSubmitVerification db uid
      = (false, "Email must be verified before submitting identity verification") := by
  constructor
  · unfold VerificationService.SubmitIdentityVerification
    rw [if_neg (by simp [hpend])]
    rw [hu]
    dsimp only
    rw [if_neg (by simp [hver])]
    rw [getByID_create_fresh db.verifications _ hfresh]
    exact ⟨_, _, rfl, rfl, rfl⟩
  · unfold VerificationService.CanSubmitVerification
    rw [hu]
    dsimp only
    rw [if_neg (by simp [hver]), if_pos (by simp [hemail])]

/-- Witness for C10 at a concrete unverified-email user. -/
theorem submit_ignores_email_verification_witness :
    (∃ v db2, VerificationService.SubmitIdentityVerification dbNoEmail 8 reqSub 0 = .ok (v, db2) ∧
        v.status = IdentityVerificationStatus.pending ∧ v.userId = 8) ∧
    VerificationService.CanSubmitVerification dbNoEmail 8
      = (false, "Email must be verified before submitting identity verification") :=
  submit_ignores_email_verification dbNoEmail 8 reqSub 0 noEmailUser
    rfl (by decide) (by decide) (by decide) (by decide)

/-- C8: VerifyEmail fails with the invalid-or-expired error when no user
matches a non-expired token, fails with the already-verified error when
the matched user is already email-verified, and otherwise succeeds,
setting the flag and clearing the stored token and expiry on the user. -/
theorem verifyEmail_cases (db : Db) (token : String) (now : Nat) :
    (isOk (UserRepository.GetByEmailVerificationToken db.users token now) = false →
      AuthService.VerifyEmail db token now = .error "invalid or expired verification token") ∧
    (∀ u, UserRepository.GetByEmailVerificationToken db.users token now = .ok u →
      u.isEmailVerified = true →
      AuthService.VerifyEmail db token now = .error "email already verified") ∧
    (∀ u, UserRepository.GetByEmailVerificationToken db.users token now = .ok u →
      u.isEmailVerified = false →
      ∃ db2, AuthService.VerifyEmail db token now = .ok db2 ∧
        ∀ w ∈ db2.users, w.id = u.id →
          w.isEmailVerified = true ∧ w.emailVerificationToken = Option.none ∧
          w.emailVerificationExpiresAt = Option.none) := by
  refine ⟨?_, ?_, ?_⟩
  · intro hno
    unfold AuthService.VerifyEmail
    cases hg : UserRepository.GetByEmailVerificationToken db.users token now with
    | error e => rfl
    | ok u => rw [hg] at hno; simp [isOk] at hno
  · intro u hu hver
    unfold AuthService.VerifyEmail
    rw [hu]
    dsimp only
    rw [if_pos hver]
  · intro u hu hver
    unfold AuthService.VerifyEmail
    rw [hu]
    dsimp only
    rw [if_neg (by simp [hver])]
    refine ⟨_, rfl, ?_⟩
    intro w hw hid
    unfold UserRepository.VerifyEmail at hw
    rcases List.mem_map.mp hw with ⟨x, hx, rfl⟩
    by_cases hxe : x.id = u.id
    · simp [hxe]
    · rw [if_neg hxe] at hid
      exact absurd hid hxe

/-- Witness for C8: the success case at a concrete store. -/
theorem verifyEmail_cases_witness :
    ∃ db2, AuthService.VerifyEmail dbEmail "tok123" 0 = .ok db2 ∧
      ∀ w ∈ db2.users, w.id = emailUser.id →
        w.isEmailVerified = true ∧ w.emailVerificationToken = Option.none ∧
        w.emailVerificationExpiresAt = Option.none :=
  (verifyEmail_cases dbEmail "tok123" 0).2.2 emailUser rfl rfl

end VieTick
namespace VieTick

/-- C3 (amended): both `Login` failure causes (email lookup, password
check) return the identical generic message, while `RefreshToken` returns
a distinct cause-specific message for each of its three failure causes
(JWT validation, stored-hash lookup, user lookup). -/
theorem login_refresh_failure_messages (j : JWTManager) (db : Db) (email password : String)
    (t : Jwt) (now : Nat) :
    (isOk (UserRepository.GetByEmail db.users email) = false →
      AuthService.Login j db email password now = .error "invalid email or password") ∧
    (∀ u, UserRepository.GetByEmail db.users email = .ok u →
      CheckPassword password u.passwordHash = false →
      AuthService.Login j db email password now = .error "invalid email or password") ∧
    (∀ e, JWTManager.ValidateRefreshToken j t now = .error e →
      AuthService.RefreshToken j db t now = .error ("invalid refresh token: " ++ e)) ∧
    (JWTManager.ValidateRefreshToken j t now = .ok t →
      isOk (AuthRepository.GetRefreshToken db.sessions (AuthService.hashToken t) now) = false →
      AuthService.RefreshToken j db t now = .error "refresh token not found or expired") ∧
    (∀ s, JWTManager.ValidateRefreshToken j t now = .ok t →
      AuthRepository.GetRefreshToken db.sessions (AuthService.hashToken t) now = .ok s →
      isOk (UserRepository.GetByID db.users s.userId) = false →
      AuthService.RefreshToken j db t now = .error "user not found") := by
  refine ⟨?_, ?_, ?_, ?_, ?_⟩
  · intro hno
    unfold AuthService.Login
    cases hg : UserRepository.GetByEmail db.users email with
    | error e => rfl
    | ok u => rw [hg] at hno; simp [isOk] at hno
  · intro u hu hpw
    unfold AuthService.Login
    rw [hu]
    dsimp only
    rw [if_neg (by simp [hpw])]
  · intro e he
    unfold AuthService.RefreshToken
    rw [he]
  · intro hval hno
    unfold AuthService.RefreshToken
    rw [hval]
    dsimp only
    cases hg : AuthRepository.GetRefreshToken db.sessions (AuthService.hashToken t) now with
    | error e => rfl
    | ok s => rw [hg] at hno; simp [isOk] at hno
  · intro s hval hs hno
    unfold AuthService.RefreshToken
    rw [hval]
    dsimp only
    rw [hs]
    dsimp only
    cases hg : UserRepository.GetByID db.users s.userId with
    | error e => rfl
    | ok u => rw [hg] at hno; simp [isOk] at hno

/-- Witness for C3 (amended): the user-lookup failure message at a
concrete store. -/
theorem login_refresh_failure_messages_witness :
    AuthService.RefreshToken cfg1 dbOrphan tokOrphan 0 = .error "user not found" :=
  (login_refresh_failure_messages cfg1 dbOrphan "" "" tokOrphan 0).2.2.2.2
    { id := 1, userId := 99, tokenHash := AuthService.hashToken tokOrphan,
      expiresAt := 100, createdAt := 0 }
    rfl rfl rfl

/-- C4 (amended): a rejected review updates the verification record
(status, notes, reviewed-at, reviewed-by) and leaves the user table
completely unchanged — in particular the owning user keeps the previous
identity_verification_status and is_verified stays false. -/
theorem review_rejected_updates_record_only (db : Db) (vid reviewer : Nat)
    (notes : Option String) (now : Nat) (v : IdentityVerification)
    (hv : VerificationRepository.GetByID db.verifications vid = .ok v)
    (hpend : v.status = IdentityVerificationStatus.pending) :
    VerificationService.ReviewVerification db vid reviewer
        IdentityVerificationStatus.rejected notes now
      = .ok ({ v with
                 status := IdentityVerificationStatus.rejected,
                 adminNotes := notes,
                 reviewedAt := some now,
                 reviewedBy := some reviewer },
             { db with
                 verifications := db.verifications.map (fun w =>
                   if w.id = vid then
                     { w with
                         status := IdentityVerificationStatus.rejected,
                         adminNotes := notes,
                         reviewedAt := some now,
                         reviewedBy := some reviewer }
                   else w) }) ∧
    (okVDb (VerificationService.ReviewVerification db vid reviewer
        IdentityVerificationStatus.rejected notes now) db).users = db.users := by
  have hfind : db.verifications.find? (fun w => decide (w.id = vid)) = some v := by
    unfold VerificationRepository.GetByID at hv
    cases hf : db.verifications.find? (fun w => decide (w.id = vid)) with
    | none => rw [hf] at hv; cases hv
    | some x => rw [hf] at hv; cases hv; rfl
  have hmain : VerificationService.ReviewVerification db vid reviewer
      IdentityVerificationStatus.rejected notes now
      = .ok ({ v with
                 status := IdentityVerificationStatus.rejected,
                 adminNotes := notes,
                 reviewedAt := some now,
                 reviewedBy := some reviewer },
             { db with
                 verifications := db.verifications.map (fun w =>
                   if w.id = vid then
                     { w with
                         status := IdentityVerificationStatus.rejected,
                         adminNotes := notes,
                         reviewedAt := some now,
                         reviewedBy := some reviewer }
                   else w) }) := by
    unfold VerificationService.ReviewVerification
    rw [hv]
    dsimp only
    rw [if_neg (by simp [hpend])]
    unfold VerificationRepository.Review
    rw [if_neg (by decide :
      ¬(IdentityVerificationStatus.rejected = IdentityVerificationStatus.approved))]
    dsimp only
    have hupd := find?_update_id db.verifications vid
      (fun w => { w with
                    status := IdentityVerificationStatus.rejected,
                    adminNotes := notes,
                    reviewedAt := some now,
                    reviewedBy := some reviewer })
      (fun w => rfl) v hfind
    unfold VerificationRepository.GetByID
    rw [hupd]
  exact ⟨hmain, by rw [hmain]; rfl⟩

/-- Witness for C4 (amended) at a concrete pending submission. -/
theorem review_rejected_updates_record_only_witness :
    (okVDb (VerificationService.ReviewVerification dbPend 1 9
        IdentityVerificationStatus.rejected Option.none 5) dbPend).users = dbPend.users :=
  (review_rejected_updates_record_only dbPend 1 9 Option.none 5 pendVerif rfl rfl).2

end VieTick
namespace VieTick

/-- C5: the invariant that is_verified holds exactly when
identity_verification_status is approved is preserved by Submit, Review
(any decision) and Delete: if every user satisfies it before the
operation, every user satisfies it afterwards. -/
theorem verification_ops_preserve_trust_invariant (db : Db) (uid : Nat)
    (req : VerificationService.SubmitIdentityVerificationRequest)
    (now vid reviewer : Nat) (st : IdentityVerificationStatus) (notes : Option String)
    (hinv : dbInv db) :
    dbInv (okVDb (VerificationService.SubmitIdentityVerification db uid req now) db) ∧
    dbInv (okVDb (VerificationService.ReviewVerification db vid reviewer st notes now) db) ∧
    dbInv (okDb (VerificationService.DeleteVerification db vid) db) := by
  refine ⟨?_, ?_, ?_⟩
  · unfold VerificationService.SubmitIdentityVerification
    split
    · exact hinv
    · split
      · exact hinv
      · next user hu =>
        split
        · exact hinv
        · next hver =>
          dsimp only
          split
          · exact hinv
          · intro w hw
            unfold UserRepository.Update at hw
            rcases List.mem_map.mp hw with ⟨x, hx, rfl⟩
            split
            · next hxid =>
              have huv : user.isVerified = false := by
                revert hver
                cases user.isVerified <;> simp
              constructor
              · intro hc
                rw [huv] at hc
                cases hc
              · intro hc
                cases hc
            · exact hinv x hx
  · unfold VerificationService.ReviewVerification
    split
    · exact hinv
    · split
      · exact hinv
      · split
        · exact hinv
        · next db1 heq =>
          split
          · exact hinv
          · unfold VerificationRepository.Review at heq
            split at heq
            · dsimp only at heq
              split at heq
              · cases heq
              · next v hv =>
                cases heq
                intro w hw
                rcases List.mem_map.mp hw with ⟨x, hx, rfl⟩
                split
                · constructor
                  · intro _
                    rfl
                  · intro _
                    rfl
                · exact hinv x hx
            · cases heq
              exact hinv
  · unfold VerificationService.DeleteVerification VerificationRepository.Delete
    by_cases hany : (db.verifications.any (fun v => decide (v.id = vid))) = true
    · rw [if_pos hany]
      exact hinv
    · rw [if_neg hany]
      exact hinv

/-- Witness for C5 at a concrete store with a pending submission. -/
theorem verification_ops_preserve_trust_invariant_witness :
    dbInv (okVDb (VerificationService.SubmitIdentityVerification dbPend 7 reqSub 5) dbPend) ∧
    dbInv (okVDb (VerificationService.ReviewVerification dbPend 1 9
        IdentityVerificationStatus.approved Option.none 5) dbPend) ∧
    dbInv (okDb (VerificationService.DeleteVerification dbPend 1) dbPend) :=
  verification_ops_preserve_trust_invariant dbPend 7 reqSub 5 1 9
    IdentityVerificationStatus.approved Option.none (by decide)

end VieTick
namespace VieTick

/-- C6: ChangePassword with a wrong current password fails with the
incorrect-password error before any mutation; with the right password it
succeeds, updates the stored hash to the hash of the new password,
deletes every session of the user, and any refresh token whose stored
hash belonged to that user is rejected afterwards. -/
theorem changePassword_checks_and_revokes (j : JWTManager) (db : Db) (userId : Nat)
    (current newPw : String) (t : Jwt) (nowLater : Nat) :
    (isOk (UserRepository.GetByID db.users userId) = true →
      AuthService.currentPasswordOk db userId current = false →
      AuthService.ChangePassword db userId current newPw
        = .error "current password is incorrect") ∧
    (AuthService.currentPasswordOk db userId current = true →
      AuthService.ChangePassword db userId current newPw
        = .ok (okDb (AuthService.ChangePassword db userId current newPw) db) ∧
      (∀ s ∈ (okDb (AuthService.ChangePassword db userId current newPw) db).sessions,
        ¬(s.userId = userId)) ∧
      (∀ w ∈ (okDb (AuthService.ChangePassword db userId current newPw) db).users,
        w.id = userId → w.passwordHash = HashPassword newPw) ∧
      ((∀ s ∈ db.sessions, s.tokenHash = AuthService.hashToken t → s.userId = userId) →
        isOk (AuthService.RefreshToken j
          (okDb (AuthService.ChangePassword db userId current newPw) db) t nowLater)
          = false)) := by
  constructor
  · intro hok hpw
    rcases (isOk_iff_exists _).mp hok with ⟨u, hu⟩
    unfold AuthService.currentPasswordOk at hpw
    rw [hu] at hpw
    dsimp only at hpw
    unfold AuthService.ChangePassword
    rw [hu]
    dsimp only
    rw [if_neg (by simp [hpw])]
  · intro hpw
    unfold AuthService.currentPasswordOk at hpw
    cases hu : UserRepository.GetByID db.users userId with
    | error e => rw [hu] at hpw; cases hpw
    | ok u =>
      rw [hu] at hpw
      dsimp only at hpw
      have huid := (getByID_ok db.users userId u hu).2
      have hmain : AuthService.ChangePassword db userId current newPw
          = .ok { db with
                    users := UserRepository.UpdatePassword db.users u.id (HashPassword newPw),
                    sessions := AuthRepository.DeleteUserRefreshTokens db.sessions u.id } := by
        unfold AuthService.ChangePassword
        rw [hu]
        dsimp only
        rw [if_pos hpw]
      rw [hmain]
      dsimp only [okDb]
      refine ⟨rfl, ?_, ?_, ?_⟩
      · intro s hs
        have h2 := (mem_deleteUserRefreshTokens db.sessions u.id s hs).2
        rw [← huid]
        exact h2
      · intro w hw hid
        unfold UserRepository.UpdatePassword at hw
        rcases List.mem_map.mp hw with ⟨x, hx, rfl⟩
        by_cases hxid : x.id = u.id
        · rw [if_pos hxid]
        · rw [if_neg hxid] at hid ⊢
          exact absurd (hid.trans huid.symm) hxid
      · intro hown
        unfold AuthService.RefreshToken
        cases hv : JWTManager.ValidateRefreshToken j t nowLater with
        | error e => rfl
        | ok c =>
          have hnone := getRefreshToken_none
            (AuthRepository.DeleteUserRefreshTokens db.sessions u.id)
            (AuthService.hashToken t) nowLater ?_
          · rw [hnone]
            rfl
          · intro s hs hhash
            obtain ⟨hsmem, hsuid⟩ := mem_deleteUserRefreshTokens db.sessions u.id s hs
            exact hsuid ((hown s hsmem hhash).trans huid.symm)

/-- Witness for C6: after a successful password change at a concrete
store, the previously issued refresh token is rejected. -/
theorem changePassword_checks_and_revokes_witness :
    isOk (AuthService.RefreshToken cfg1
      (okDb (AuthService.ChangePassword dbW 1 "p" "r") dbW) tokW 0) = false :=
  ((changePassword_checks_and_revokes cfg1 dbW 1 "p" "r" tokW 0).2
    (by decide)).2.2.2 (by decide)

end VieTick
namespace VieTick

/-- C2: a refresh token accepted once by `RefreshToken` is rejected on a
second presentation: the first call deletes the session row whose hash
matches the token, so even while the JWT signature and expiry are still
valid, the stored-hash lookup fails and the second call returns the
not-found-or-expired error. The freshness hypothesis states that every
stored hash was minted before the current counter value, which every
reachable store satisfies. -/
theorem refreshToken_single_use (j : JWTManager) (db : Db) (t : Jwt) (now nowLater : Nat)
    (hwf : ∀ s ∈ db.sessions, s.tokenHash.nonce < db.nextId)
    (hok : isOk (AuthService.RefreshToken j db t now) = true)
    (hexp : nowLater < t.expiresAt) :
    AuthService.RefreshToken j (okVDb (AuthService.RefreshToken j db t now) db) t nowLater
      = .error "refresh token not found or expired" := by
  rcases (isOk_iff_exists _).mp hok with ⟨⟨r, db3⟩, heq0⟩
  have heq := heq0
  unfold AuthService.RefreshToken at heq
  split at heq
  · cases heq
  · next c hval =>
    split at heq
    · cases heq
    · next s hget =>
      split at heq
      · cases heq
      · next user huser =>
        dsimp only at heq
        split at heq
        · cases heq
        · next profile hprof =>
          have hsecret := (validateRefreshToken_ok j t c now hval).2.1
          obtain ⟨hsmem, hsh, _⟩ := getRefreshToken_ok db.sessions (AuthService.hashToken t) now s hget
          have hbound : t.nonce < db.nextId := by
            have hb := hwf s hsmem
            rw [hsh] at hb
            exact hb
          cases heq
          rw [heq0]
          dsimp only [okVDb]
          unfold AuthService.RefreshToken
          rw [validateRefreshToken_ok_of j t nowLater hsecret hexp]
          dsimp only
          rw [getRefreshToken_none _ _ _ ?_]
          · intro x hx
            rcases mem_storeRefreshToken _ _ _ _ _ _ hx with hx2 | rfl
            · exact (mem_deleteRefreshToken _ _ _ hx2).2
            · intro hcontra
              have hn := congrArg Jwt.nonce hcontra
              simp only [AuthService.newSessionRecord, AuthService.hashToken,
                JWTManager.GenerateRefreshToken] at hn
              omega

/-- Witness for C2 at a concrete store with one session. -/
theorem refreshToken_single_use_witness :
    AuthService.RefreshToken cfg1 (okVDb (AuthService.RefreshToken cfg1 dbW tokW 0) dbW) tokW 1
      = .error "refresh token not found or expired" :=
  refreshToken_single_use cfg1 dbW tokW 0 1 (by decide) (by decide) (by decide)

end VieTick
namespace VieTick

/-- C1 (amended): when every stored session of the user is live at the
time a session is created (no expired rows) and the ids are distinct,
`storeRefreshToken` keeps the live count at most 5; and when the count is
exactly 5, it stays exactly 5 and the evicted row is precisely the oldest
of the user by creation time. Without the no-expired-rows hypothesis the
bound fails (see the counterexample). -/
theorem storeRefreshToken_cap_when_no_expired (j : JWTManager) (db : Db) (u : Nat)
    (tok : Jwt) (now : Nat)
    (hall : ∀ s ∈ db.sessions, s.userId = u → now < s.expiresAt)
    (hnd : (db.sessions.map Model.RefreshToken.id).Nodup)
    (hE : 0 < JWTManager.GetRefreshTokenExpiry j)
    (hcap : AuthRepository.GetUserRefreshTokenCount db.sessions u now ≤ 5) :
    AuthRepository.GetUserRefreshTokenCount
        (AuthService.storeRefreshToken j db u tok now).sessions u now ≤ 5 ∧
    (AuthRepository.GetUserRefreshTokenCount db.sessions u now = 5 →
      AuthRepository.GetUserRefreshTokenCount
          (AuthService.storeRefreshToken j db u tok now).sessions u now = 5 ∧
      ∃ o, AuthRepository.minCreated
            (db.sessions.filter (fun s => decide (s.userId = u))) = some o ∧
        o ∈ db.sessions ∧ o.userId = u ∧
        (∀ s ∈ db.sessions, s.userId = u → o.createdAt ≤ s.createdAt) ∧
        (AuthService.storeRefreshToken j db u tok now).sessions
          = db.sessions.filter (fun s => !decide (s.id = o.id))
            ++ [AuthService.newSessionRecord j db u tok now]) := by
  have hPnew : (fun s => decide (s.userId = u) && decide (now < s.expiresAt))
      (AuthService.newSessionRecord j db u tok now) = true := by
    simp [AuthService.newSessionRecord]
    exact hE
  by_cases hfive : 5 ≤ AuthRepository.GetUserRefreshTokenCount db.sessions u now
  · have hn5 : AuthRepository.GetUserRefreshTokenCount db.sessions u now = 5 :=
      Nat.le_antisymm hcap hfive
    have hne : db.sessions.filter (fun s => decide (s.userId = u)) ≠ [] := by
      intro hnil
      have hz : db.sessions.filter
          (fun s => decide (s.userId = u) && decide (now < s.expiresAt)) = [] := by
        rw [List.filter_eq_nil_iff] at hnil ⊢
        intro s hs
        simp only [Bool.and_eq_true, not_and]
        intro hsu
        exact absurd hsu (by simpa using hnil s hs)
      unfold AuthRepository.GetUserRefreshTokenCount at hn5
      rw [hz] at hn5
      cases hn5
    obtain ⟨o, ho⟩ := minCreated_isSome _ hne
    have homem2 := minCreated_mem _ o ho
    have homem := (List.mem_filter.mp homem2).1
    have houid : o.userId = u := by
      have h2 := (List.mem_filter.mp homem2).2
      simpa using h2
    have holive : now < o.expiresAt := hall o homem houid
    have hole : ∀ s ∈ db.sessions, s.userId = u → o.createdAt ≤ s.createdAt := by
      intro s hs hsu
      exact minCreated_le _ o ho s (List.mem_filter.mpr ⟨hs, by simp [hsu]⟩)
    have hsess : (AuthService.storeRefreshToken j db u tok now).sessions
        = db.sessions.filter (fun s => !decide (s.id = o.id))
          ++ [AuthService.newSessionRecord j db u tok now] := by
      unfold AuthService.storeRefreshToken
      dsimp only
      rw [if_pos hfive]
      unfold AuthRepository.DeleteOldestUserRefreshToken
      rw [ho]
    have hPo : (fun s => decide (s.userId = u) && decide (now < s.expiresAt)) o = true := by
      simp [houid, holive]
    have hcount := length_filter_erase_id db.sessions o
      (fun s => decide (s.userId = u) && decide (now < s.expiresAt)) hnd homem
    rw [if_pos hPo] at hcount
    have hafter : AuthRepository.GetUserRefreshTokenCount
        (AuthService.storeRefreshToken j db u tok now).sessions u now
        = ((db.sessions.filter (fun s => !decide (s.id = o.id))).filter
            (fun s => decide (s.userId = u) && decide (now < s.expiresAt))).length + 1 := by
      unfold AuthRepository.GetUserRefreshTokenCount
      rw [hsess, List.filter_append, List.length_append]
      simp [hPnew]
    unfold AuthRepository.GetUserRefreshTokenCount at hn5
    constructor
    · omega
    · intro _
      exact ⟨by omega, o, ho, homem, houid, hole, hsess⟩
  · have hsess : (AuthService.storeRefreshToken j db u tok now).sessions
        = db.sessions ++ [AuthService.newSessionRecord j db u tok now] := by
      unfold AuthService.storeRefreshToken
      dsimp only
      rw [if_neg hfive]
    have hafter : AuthRepository.GetUserRefreshTokenCount
        (AuthService.storeRefreshToken j db u tok now).sessions u now
        = AuthRepository.GetUserRefreshTokenCount db.sessions u now + 1 := by
      unfold AuthRepository.GetUserRefreshTokenCount
      rw [hsess, List.filter_append, List.length_append]
      simp [hPnew]
    constructor
    · omega
    · intro h5
      exact absurd (h5 ▸ Nat.le_refl 5) hfive

/-- Witness for C1 (amended) at a store where user 1 has exactly 5 live
sessions. -/
theorem storeRefreshToken_cap_when_no_expired_witness :
    AuthRepository.GetUserRefreshTokenCount
        (AuthService.storeRefreshToken cfg1 dbAtCap 1 tokW 10).sessions 1 10 ≤ 5 :=
  (storeRefreshToken_cap_when_no_expired cfg1 dbAtCap 1 tokW 10
    (by decide) (by decide) (by decide) (by decide)).1

end VieTick
namespace VieTick

/-- C7 (amended): the rotation performs delete-then-insert as separate
writes: no intermediate state of the rotation validates both the old and
the new refresh token (the old row is gone before the new row exists),
but the two writes are not committed together — when the final insert
fails, the deletes are not rolled back and the old token no longer
validates in the resulting state. -/
theorem rotation_delete_before_insert (j : JWTManager) (db : Db) (t newTok : Jwt)
    (uid now : Nat)
    (hwf : ∀ s ∈ db.sessions, s.tokenHash.nonce < db.nextId)
    (hmint : newTok.nonce = db.nextId + 1)
    (hstored : isOk (AuthRepository.GetRefreshToken db.sessions
        (AuthService.hashToken t) now) = true) :
    (∀ st ∈ AuthService.rotationStates j db t newTok uid now,
      ¬(isOk (AuthRepository.GetRefreshToken st (AuthService.hashToken t) now) = true ∧
        isOk (AuthRepository.GetRefreshToken st (AuthService.hashToken newTok) now) = true)) ∧
    isOk (AuthRepository.GetRefreshToken
        (AuthService.rotationWithInsertFault db t uid now).2
        (AuthService.hashToken t) now) = false := by
  rcases (isOk_iff_exists _).mp hstored with ⟨s0, hs0⟩
  obtain ⟨hs0mem, hs0hash, _⟩ :=
    getRefreshToken_ok db.sessions (AuthService.hashToken t) now s0 hs0
  have htnonce : t.nonce < db.nextId := by
    have hb := hwf s0 hs0mem
    rw [hs0hash] at hb
    exact hb
  have hs1 : ∀ x ∈ AuthRepository.DeleteRefreshToken db.sessions (AuthService.hashToken t),
      ¬(x.tokenHash = AuthService.hashToken t) := by
    intro x hx
    exact (mem_deleteRefreshToken _ _ _ hx).2
  have hs2 : ∀ x, x ∈ (if 5 ≤ AuthRepository.GetUserRefreshTokenCount
        (AuthRepository.DeleteRefreshToken db.sessions (AuthService.hashToken t)) uid now then
        AuthRepository.DeleteOldestUserRefreshToken
          (AuthRepository.DeleteRefreshToken db.sessions (AuthService.hashToken t)) uid
      else AuthRepository.DeleteRefreshToken db.sessions (AuthService.hashToken t)) →
      ¬(x.tokenHash = AuthService.hashToken t) := by
    intro x hx
    split at hx
    · exact hs1 x (mem_deleteOldest _ _ _ hx)
    · exact hs1 x hx
  constructor
  · intro st hst
    simp only [AuthService.rotationStates, List.mem_cons, List.mem_singleton,
      List.not_mem_nil, or_false] at hst
    rcases hst with rfl | rfl | rfl | rfl
    · rintro ⟨_, hNew⟩
      rcases (isOk_iff_exists _).mp hNew with ⟨x, hxeq⟩
      obtain ⟨hxm, hxh, _⟩ :=
        getRefreshToken_ok db.sessions (AuthService.hashToken newTok) now x hxeq
      have hb := hwf x hxm
      rw [hxh] at hb
      have hb2 : newTok.nonce < db.nextId := hb
      omega
    · rintro ⟨hOld, _⟩
      rcases (isOk_iff_exists _).mp hOld with ⟨x, hxeq⟩
      obtain ⟨hxm, hxh, _⟩ := getRefreshToken_ok _ (AuthService.hashToken t) now x hxeq
      exact hs1 x hxm hxh
    · rintro ⟨hOld, _⟩
      rcases (isOk_iff_exists _).mp hOld with ⟨x, hxeq⟩
      obtain ⟨hxm, hxh, _⟩ := getRefreshToken_ok _ (AuthService.hashToken t) now x hxeq
      exact hs2 x hxm hxh
    · rintro ⟨hOld, _⟩
      rcases (isOk_iff_exists _).mp hOld with ⟨x, hxeq⟩
      obtain ⟨hxm, hxh, _⟩ := getRefreshToken_ok _ (AuthService.hashToken t) now x hxeq
      rcases List.mem_append.mp hxm with hx2 | hx2
      · exact hs2 x hx2 hxh
      · rw [List.mem_singleton.mp hx2] at hxh
        have hn := congrArg Jwt.nonce hxh
        simp only [AuthService.newSessionRecord, AuthService.hashToken] at hn
        omega
  · cases hg : AuthRepository.GetRefreshToken
        (AuthService.rotationWithInsertFault db t uid now).2
        (AuthService.hashToken t) now with
    | error e => rfl
    | ok x =>
      obtain ⟨hxm, hxh, _⟩ := getRefreshToken_ok _ (AuthService.hashToken t) now x hg
      exact absurd hxh (hs2 x hxm)

/-- Witness for C7 (amended) at a concrete store. -/
theorem rotation_delete_before_insert_witness :
    isOk (AuthRepository.GetRefreshToken
        (AuthService.rotationWithInsertFault dbW tokW 1 0).2
        (AuthService.hashToken tokW) 0) = false :=
  (rotation_delete_before_insert cfg1 dbW tokW { tokW with nonce := 8 } 1 0
    (by decide) rfl (by decide)).2

end VieTick
